import Mathlib

/-!
Shallow embedding of the tool-calling agent loop of `app.js` (class `LLMAgent`).

Modelling conventions:
* JavaScript values that flow through the orchestration core are modelled by the
  inductive `Json` (the values `JSON.parse` can produce); the JS `undefined` is
  represented by `Option.none` at the places where a field access can miss.
* Host primitives (`JSON.parse`, `eval`) are oracles passed in as parameters:
  `parse : String → Except String Json` and `evalFn : String → EvalOutcome`.
  `JSON.stringify`'s exact rendering is modelled by `stringify` (simplified
  escaping; no claim depends on its exact text).
* A thrown JS exception is an `Except.error` carrying the error message;
  a `try`/`catch` block is a `match` on that `Except`.
* DOM / rendering calls (`addMessage`, `showToolResult`, loading indicators,
  alerts) are pure UI effects and are dropped, except where they can throw:
  `showToolCall` re-parses the tool call's arguments with `JSON.parse` before
  the `try` block of `handleToolCall`, so that parse is kept.
* The global `console.log` slot is modelled by `LogFn` and threaded through
  `executeJS`; since `executeJS` provably restores it on every exit, the rest
  of the loop is console-invariant and is written console-free.
-/

/-- Values produced by `JSON.parse` (the structured data of the wire format). -/
inductive Json where
  | null
  | bool (b : Bool)
  | num (n : Int)
  | str (s : String)
  | arr (elems : List Json)
  | obj (fields : List (String × Json))

/-- First-match field lookup in a JS object literal; objects coming out of
`JSON.parse` have effectively unique keys (last duplicate wins there), so the
parse oracle is assumed to produce duplicate-free field lists. -/
def fieldLookup : List (String × Json) → String → Option Json
  | [], _ => none
  | (k, v) :: rest, key => if k = key then some v else fieldLookup rest key

/-- JS member access `v.k`: throws a TypeError on `null`, yields the field on an
object, and `undefined` (here `none`) on every other value. -/
def jsMember (v : Json) (k : String) : Except String (Option Json) :=
  match v with
  | .null => Except.error ("TypeError: Cannot read properties of null (reading " ++ k ++ ")")
  | .obj fs => Except.ok (fieldLookup fs k)
  | _ => Except.ok none

/-- JS index access `v[0]`: throws on `null`, yields the head of an array, the
first character of a non-empty string, `undefined` otherwise. -/
def jsIndex0 (v : Json) : Except String (Option Json) :=
  match v with
  | .null => Except.error "TypeError: Cannot read properties of null (reading 0)"
  | .arr xs => Except.ok xs.head?
  | .str s => Except.ok (if s = "" then none else some (.str (s.take 1)))
  | _ => Except.ok none

/-- JS truthiness of a parsed value. -/
def jsTruthy : Json → Bool
  | .null => false
  | .bool b => b
  | .num n => decide (n ≠ 0)
  | .str s => decide (s ≠ "")
  | .arr _ => true
  | .obj _ => true

mutual

/-- JS `String(v)` coercion, as used by template literals: arrays join their
elements with commas (with `null` rendered empty), objects render as
`[object Object]`. -/
def jsString : Json → String
  | .null => "null"
  | .bool b => if b then "true" else "false"
  | .num n => toString n
  | .str s => s
  | .arr xs => String.intercalate "," (jsStringList xs)
  | .obj _ => "[object Object]"

/-- Element-wise coercion for `Array.prototype.toString` (`null` renders as ""). -/
def jsStringList : List Json → List String
  | [] => []
  | .null :: rest => "" :: jsStringList rest
  | v :: rest => jsString v :: jsStringList rest

end

/-- Escape of string contents inside a JSON serialization (simplified model of
the host primitive: quote and backslash only). -/
def jsonEscape (s : String) : String :=
  String.join (s.data.map fun c =>
    if c = '"' then "\\\"" else if c = '\\' then "\\\\" else String.singleton c)

mutual

/-- Model of the host primitive `JSON.stringify` (compact rendering; the
indentation argument of the source's `JSON.stringify(v, null, 2)` is not
reproduced — no specified property depends on the exact text). -/
def stringify : Json → String
  | .null => "null"
  | .bool b => if b then "true" else "false"
  | .num n => toString n
  | .str s => "\"" ++ jsonEscape s ++ "\""
  | .arr xs => "[" ++ String.intercalate "," (stringifyList xs) ++ "]"
  | .obj fs => "\x7b" ++ String.intercalate "," (stringifyFields fs) ++ "\x7d"

def stringifyList : List Json → List String
  | [] => []
  | v :: rest => stringify v :: stringifyList rest

def stringifyFields : List (String × Json) → List String
  | [] => []
  | (k, v) :: rest => ("\"" ++ jsonEscape k ++ "\":" ++ stringify v) :: stringifyFields rest

end

/-- Rendering of one argument in the replaced `console.log` (and of the return
value in `executeJS`): `typeof arg === 'object' ? JSON.stringify(arg, null, 2)
: String(arg)`; note `typeof null` is `'object'` in JS. -/
def logArg (v : Json) : String :=
  match v with
  | .null => stringify .null
  | .arr xs => stringify (.arr xs)
  | .obj fs => stringify (.obj fs)
  | other => jsString other

/-- One call of the replaced `console.log`: arguments rendered, joined by a
space, with a trailing newline appended. -/
def logLine (callArgs : List Json) : String :=
  String.intercalate " " (callArgs.map logArg) ++ "\n"

/-- A model-issued request to invoke one tool (`{ id, function: { name,
arguments } }` on the wire; `arguments` is the still-serialized payload). -/
structure ToolCall where
  id : String
  name : String
  args : String
deriving Repr, DecidableEq

/-- One entry of the conversation store (`this.conversation`). `content` and
`tool_calls` hold the raw values pushed by the source (`none` = the field is
absent / `undefined`). -/
structure Turn where
  role : String
  content : Option Json := none
  tool_calls : Option Json := none
  tool_call_id : Option String := none

/-- The value held in the global `console.log` slot: either some pre-existing
host function (identified abstractly) or the capturing wrapper `executeJS`
installs around a prior value. -/
inductive LogFn where
  | base (id : Nat)
  | capture (prior : LogFn)

/-- Outcome of one host `eval` of a code payload: normal completion with the
sequence of `console.log` calls made during evaluation (each a list of
arguments) and the final value (`none` = `undefined`), or a thrown fault whose
logs are discarded by the `catch` path. -/
inductive EvalOutcome where
  | ok (logs : List (List Json)) (result : Option Json)
  | fault (logs : List (List Json)) (msg : String)

/-- `LLMAgent.executeJS` (lines 370-406): replaces `console.log` with a
capturing wrapper, evaluates, and on both exits restores the saved original
before returning the formatted output or rethrowing the fault message. The
second component is the value of the `console.log` slot when the handler
returns or propagates. -/
def executeJS (evalOut : EvalOutcome) (consoleLog : LogFn) : Except String String × LogFn :=
  let originalLog := consoleLog
  -- console.log := the capturing wrapper (LogFn.capture originalLog) for the
  -- duration of eval; its observations are the logs carried by evalOut
  match evalOut with
  | .fault _ msg =>
    -- catch: console.log = originalLog; throw new Error(`JavaScript execution error: ...`)
    (Except.error ("JavaScript execution error: " ++ msg), originalLog)
  | .ok logs result =>
    -- console.log = originalLog, then the output is assembled
    let consoleOutput := String.join (logs.map logLine)
    let output := if consoleOutput = "" then "" else "Console Output:\n" ++ consoleOutput
    let output :=
      match result with
      | none => output
      | some v => output ++ (if output = "" then "" else "\n\n") ++ "Return Value:\n" ++ logArg v
    (Except.ok (if output = "" then "Code executed successfully (no output)" else output),
     originalLog)

/-- Spec-side formula for the non-sentinel output of the evaluate handler: the
captured output section concatenated with the return-value section. -/
def specExecOutput (logs : List (List Json)) (result : Option Json) : String :=
  let consoleOutput := String.join (logs.map logLine)
  let consolePart := if consoleOutput = "" then "" else "Console Output:\n" ++ consoleOutput
  match result with
  | none => consolePart
  | some v => consolePart ++ (if consolePart = "" then "" else "\n\n") ++ "Return Value:\n" ++ logArg v

/-- `(executeJS e c).1` does not depend on the console slot; this projection is
what the tool dispatcher observes.  The loop is written console-free because
`executeJS` restores the slot on every exit. -/
def execJSOutcome (evalOut : EvalOutcome) : Except String String :=
  (executeJS evalOut (LogFn.base 0)).1

/-- JS destructuring `const { k } = j` of a parsed value: throws on `null`,
yields the field (or `undefined`) otherwise. -/
def argField (j : Json) (k : String) : Except String (Option Json) :=
  match j with
  | .null => Except.error ("TypeError: Cannot destructure property " ++ k ++ " of null")
  | .obj fs => Except.ok (fieldLookup fs k)
  | _ => Except.ok none

/-- Template interpolation of a possibly-missing value (`undefined` renders as
the string "undefined"). -/
def jsTemplate : Option Json → String
  | none => "undefined"
  | some v => jsString v

/-- `LLMAgent.searchWeb` (lines 340-356): canned search result built from the
destructured `query` field (the 1s delay is a pure timing effect and dropped). -/
def searchWeb (query : Option Json) : String :=
  let q := jsTemplate query
  "Search results for \"" ++ q ++ "\":\n\n1. **" ++ q ++
  " - Official Website**\n   Comprehensive information about " ++ q ++
  ", including history, services, and current developments.\n   \n2. **" ++ q ++
  " News - Latest Updates** \n   Recent news and announcements related to " ++ q ++
  " from various sources.\n   \n3. **" ++ q ++
  " Wikipedia**\n   Detailed encyclopedia entry covering background, operations, and notable facts about " ++
  q ++
  ".\n\n*Note: This is a simulated search result. In production, integrate with Google Custom Search API.*"

/-- `LLMAgent.aiPipe` (lines 358-368): canned workflow result; the `data = ''`
default applies only when the field is absent, and `data || 'None provided'`
falls back on any falsy value. -/
def aiPipe (workflow dataField : Option Json) : String :=
  let d : Json := match dataField with
    | none => .str ""
    | some v => v
  let dShown := if jsTruthy d then jsString d else "None provided"
  "AI Pipe Workflow: \"" ++ jsTemplate workflow ++ "\"\nInput Data: " ++ dShown ++
  "\n\nProcessed Result: This is a simulated AI workflow result. The system would normally process the request through various AI models and return structured data based on the workflow description.\n\n*Note: This is a simulated result. In production, integrate with aipipe.org proxy API.*"

/-- `eval(code)` where `code` is the destructured field: evaluating a
non-string argument returns it unchanged without running anything. -/
def runEval (evalFn : String → EvalOutcome) (codeVal : Option Json) : EvalOutcome :=
  match codeVal with
  | some (.str s) => evalFn s
  | some v => .ok [] (some v)
  | none => .ok [] none

/-- A tool handler's success payload as pushed into the tool turn: in the
source every handler returns a string, but the push site still distinguishes
string payloads from other values (line 325). -/
inductive Payload where
  | str (s : String)
  | other (j : Json)

/-- Line 325: `typeof result === 'string' ? result : JSON.stringify(result)`. -/
def serializePayload : Payload → String
  | .str s => s
  | .other j => stringify j

/-- The `switch (name)` inside the `try` block of `handleToolCall`
(lines 305-317): parse the arguments, destructure, run the matching handler;
an unknown name throws `Unknown tool: ...`.  An `Except.error` is a thrown
exception reaching the surrounding `catch`. -/
def dispatchTool (parse : String → Except String Json) (evalFn : String → EvalOutcome)
    (tc : ToolCall) : Except String Payload :=
  if tc.name = "search_web" then
    match parse tc.args with
    | .error e => .error e
    | .ok j =>
      match argField j "query" with
      | .error e => .error e
      | .ok q => .ok (.str (searchWeb q))
  else if tc.name = "ai_pipe" then
    match parse tc.args with
    | .error e => .error e
    | .ok j =>
      match argField j "workflow" with
      | .error e => .error e
      | .ok w =>
        match argField j "data" with
        | .error e => .error e
        | .ok d => .ok (.str (aiPipe w d))
  else if tc.name = "execute_js" then
    match parse tc.args with
    | .error e => .error e
    | .ok j =>
      match argField j "code" with
      | .error e => .error e
      | .ok codeVal =>
        match execJSOutcome (runEval evalFn codeVal) with
        | .error e => .error e
        | .ok s => .ok (.str s)
  else .error ("Unknown tool: " ++ tc.name)

/-- The tool turn pushed for one answered ToolCall (success or caught error). -/
def toolTurn (callId content : String) : Turn :=
  { role := "tool", tool_call_id := some callId, content := some (.str content) }

/-- `LLMAgent.handleToolCall` (lines 297-338).  Note the source calls
`this.showToolCall(toolCall)` BEFORE the `try` block, and `showToolCall`
re-parses `toolCall.function.arguments` with `JSON.parse` (line 436) and then
calls `Object.entries(toolArgs)` (line 452): a parse failure rethrows the
SyntaxError, and arguments that parse to `null` make `Object.entries` throw a
TypeError (`Object.entries` is total on every other parse result).  Both are
uncaught exceptions escaping `handleToolCall`, modelled by the outer
`Except.error`.  Inside the `try`, every thrown error is converted into a
tool turn whose content is `Tool execution failed: ...`. -/
def handleToolCall (parse : String → Except String Json) (evalFn : String → EvalOutcome)
    (conv : List Turn) (tc : ToolCall) : Except String (List Turn) :=
  match parse tc.args with
  | .error e => .error e
  | .ok .null => .error "TypeError: Cannot convert undefined or null to object"
  | .ok _ =>
    match dispatchTool parse evalFn tc with
    | .ok result => .ok (conv ++ [toolTurn tc.id (serializePayload result)])
    | .error msg => .ok (conv ++ [toolTurn tc.id ("Tool execution failed: " ++ msg)])

/-- The tool turn `handleToolCall` appends for a ToolCall whose arguments
parse (spec-side closed form, by cases on the dispatch outcome). -/
def toolTurnFor (parse : String → Except String Json) (evalFn : String → EvalOutcome)
    (tc : ToolCall) : Turn :=
  match dispatchTool parse evalFn tc with
  | .ok result => toolTurn tc.id (serializePayload result)
  | .error msg => toolTurn tc.id ("Tool execution failed: " ++ msg)

/-- Result of the `fetch` to `/chat/completions` as the core observes it:
either a non-OK HTTP response (status + statusText) or an OK response whose
parsed JSON body is carried. -/
inductive HttpResult where
  | notOk (status : Nat) (statusText : String)
  | ok (body : Json)

/-- `data.choices[0].message` (line 284) with JS member-access semantics; the
result is the message value, possibly `undefined` (`none`). -/
def extractMessage (data : Json) : Except String (Option Json) :=
  match jsMember data "choices" with
  | .error e => .error e
  | .ok none => .error "TypeError: Cannot read properties of undefined (reading 0)"
  | .ok (some choices) =>
    match jsIndex0 choices with
    | .error e => .error e
    | .ok none => .error "TypeError: Cannot read properties of undefined (reading message)"
    | .ok (some c0) => jsMember c0 "message"

/-- The assistant turn pushed at lines 287-291 (`content: message.content,
tool_calls: message.tool_calls`); building it faults if `message` is
`undefined` or `null` (the property reads throw before the push happens). -/
def mkAssistantTurn (message : Option Json) : Except String Turn :=
  match message with
  | none => .error "TypeError: Cannot read properties of undefined (reading content)"
  | some .null => .error "TypeError: Cannot read properties of null (reading content)"
  | some (.obj fs) =>
    .ok { role := "assistant", content := fieldLookup fs "content",
          tool_calls := fieldLookup fs "tool_calls" }
  | some _ => .ok { role := "assistant" }

/-- `LLMAgent.callLLM` (lines 258-295) for one scripted backend response: a
non-OK response throws `LLM API error: ...`; an OK body has its message
extracted and the assistant turn pushed.  The first component is the
conversation after the call (unchanged whenever the second is an error,
because every throwing step precedes the push). -/
def callLLMStep (conv : List Turn) (r : HttpResult) : List Turn × Except String Turn :=
  match r with
  | .notOk status statusText =>
    (conv, .error ("LLM API error: " ++ toString status ++ " " ++ statusText))
  | .ok body =>
    match extractMessage body with
    | .error e => (conv, .error e)
    | .ok message =>
      match mkAssistantTurn message with
      | .error e => (conv, .error e)
      | .ok t => (conv ++ [t], .ok t)

/-- Characters the host trims in `ToNumber(string)` (ECMA StrWhiteSpace:
WhiteSpace and LineTerminator code points). -/
def jsWhitespace (c : Char) : Bool :=
  c == ' ' || c == '\t' || c == '\n' || c == '\r' ||
  c.val == 11 || c.val == 12 || c.val == 0xA0 || c.val == 0x1680 ||
  (decide (0x2000 ≤ c.val) && decide (c.val ≤ 0x200A)) ||
  c.val == 0x2028 || c.val == 0x2029 || c.val == 0x202F || c.val == 0x205F ||
  c.val == 0x3000 || c.val == 0xFEFF

/-- Trim of JS numeric-conversion whitespace at both ends. -/
def jsTrimChars (l : List Char) : List Char :=
  ((l.dropWhile jsWhitespace).reverse.dropWhile jsWhitespace).reverse

def isJsHexDigit (c : Char) : Bool :=
  c.isDigit || (decide ('a' ≤ c) && decide (c ≤ 'f')) || (decide ('A' ≤ c) && decide (c ≤ 'F'))

def isJsOctDigit (c : Char) : Bool :=
  decide ('0' ≤ c) && decide (c ≤ '7')

def isJsBinDigit (c : Char) : Bool :=
  c == '0' || c == '1'

/-- Validity of an optional ExponentPart (`e`/`E`, optional sign, digits). -/
def validExponent : List Char → Bool
  | [] => true
  | c :: rest =>
    (c == 'e' || c == 'E') &&
      (let rest2 := match rest with
        | '+' :: r => r
        | '-' :: r => r
        | r => r
      !rest2.isEmpty && rest2.all Char.isDigit)

/-- `ToNumber` positivity of an unsigned decimal literal (non-empty, not
`Infinity`): valid StrDecimalLiteral whose mantissa has a nonzero digit.  An
invalid literal is NaN, which compares false. -/
def strNumPosCore (l : List Char) : Bool :=
  let intPart := l.takeWhile Char.isDigit
  let rest := l.dropWhile Char.isDigit
  match rest with
  | [] => intPart.any (fun c => c != '0')
  | '.' :: rest2 =>
    let fracPart := rest2.takeWhile Char.isDigit
    let rest3 := rest2.dropWhile Char.isDigit
    (!intPart.isEmpty || !fracPart.isEmpty) && validExponent rest3 &&
      (intPart.any (fun c => c != '0') || fracPart.any (fun c => c != '0'))
  | _ :: _ =>
    !intPart.isEmpty && validExponent rest && intPart.any (fun c => c != '0')

def strNumPosUnsigned (l : List Char) : Bool :=
  if l = "Infinity".data then true
  else
    match l with
    | [] => false
    | _ => strNumPosCore l

def strNumPosSigned : List Char → Bool
  | '-' :: _ => false
  | '+' :: rest => strNumPosUnsigned rest
  | other => strNumPosUnsigned other

/-- Whether JS `ToNumber(s) > 0`: trimmed empty is 0; a sign is only allowed
on decimal literals (so a negative or invalid literal compares false); hex,
octal and binary literals are positive when some digit is nonzero. -/
def strNumPos (s : String) : Bool :=
  match jsTrimChars s.data with
  | '0' :: c :: rest =>
    if c == 'x' || c == 'X' then !rest.isEmpty && rest.all isJsHexDigit && rest.any (fun d => d != '0')
    else if c == 'o' || c == 'O' then !rest.isEmpty && rest.all isJsOctDigit && rest.any (fun d => d != '0')
    else if c == 'b' || c == 'B' then !rest.isEmpty && rest.all isJsBinDigit && rest.any (fun d => d != '0')
    else strNumPosSigned ('0' :: c :: rest)
  | other => strNumPosSigned other

/-- Whether the relational test `L > 0` holds for a `length` property value
`L` read off a parsed object (`ToNumber` coercion: `null` is 0, booleans are
0/1, a string via `strNumPos`, an array via its comma-joined string form, a
plain object is NaN). -/
def jsGtZeroVal : Json → Bool
  | .null => false
  | .bool b => b
  | .num n => decide (0 < n)
  | .str s => strNumPos s
  | .arr xs => strNumPos (jsString (.arr xs))
  | .obj _ => false

/-- The branch test `response.tool_calls && response.tool_calls.length > 0`
(line 240): the value must be truthy and its `length` property must compare
greater than zero — true for non-empty strings and arrays, and for objects
whose `length` field coerces positive; `length` is `undefined` on the other
truthy values, and `undefined > 0` is false. -/
def line240Test : Option Json → Bool
  | none => false
  | some v =>
    jsTruthy v &&
      (match v with
       | .str s => !s.isEmpty
       | .arr xs => !xs.isEmpty
       | .obj fs =>
         (match fieldLookup fs "length" with
          | none => false
          | some lenVal => jsGtZeroVal lenVal)
       | _ => false)

/-- What the tools branch does with `response.tool_calls` when the line-240
test passes: `for (const toolCall of ...)` iterates an array's elements or a
string's code points (each a one-character string, which then faults at the
`toolCall.function` destructure), and throws `TypeError: ... is not iterable`
for any other value (a truthy-`length` plain object). -/
inductive ToolCallsView where
  | noTools
  | iterate (elems : List Json)
  | notIterable (e : String)

def toolCallsView (tcj : Option Json) : ToolCallsView :=
  if line240Test tcj then
    match tcj with
    | some (.arr xs) => .iterate xs
    | some (.str s) => .iterate (s.data.map fun c => Json.str (String.singleton c))
    | _ => .notIterable "TypeError: response.tool_calls is not iterable"
  else .noTools

/-- The `if (response.content) this.addMessage('agent', response.content)`
step (lines 236-238): rendering calls `formatMessageContent`, which invokes
`content.replace` (line 512) — fine for a string, a TypeError for any truthy
non-string content; falsy content is skipped. -/
def renderContent : Option Json → Except String Unit
  | none => .ok ()
  | some c =>
    if jsTruthy c then
      match c with
      | .str _ => .ok ()
      | _ => .error "TypeError: content.replace is not a function"
    else .ok ()

/-- Decoding of one element of `response.tool_calls` as it is consumed by
`handleToolCall` / `showToolCall` (`toolCall.id`, `toolCall.function.name`,
`toolCall.function.arguments`).  For elements that are not of the wire shape
the host faults at the first bad access; the distinct fault points are
collapsed into one error here — every property settled below exercises only
well-formed elements. -/
def decodeToolCall (j : Json) : Except String ToolCall :=
  match j with
  | .obj fs =>
    match fieldLookup fs "function" with
    | some (.obj gs) =>
      match fieldLookup fs "id", fieldLookup gs "name", fieldLookup gs "arguments" with
      | some (.str i), some (.str n), some (.str a) => .ok { id := i, name := n, args := a }
      | _, _, _ => .error "TypeError: malformed tool call"
    | _ => .error "TypeError: Cannot destructure property name of undefined"
  | _ => .error "TypeError: Cannot destructure property name of undefined"

/-- The `for (const toolCall of response.tool_calls)` body (lines 242-244):
answer each call in order, threading the conversation; an uncaught exception
stops the batch and is reported with the turns appended so far. -/
def runBatch (parse : String → Except String Json) (evalFn : String → EvalOutcome) :
    List Turn → List Json → List Turn × Option String
  | conv, [] => (conv, none)
  | conv, j :: rest =>
    match decodeToolCall j with
    | .error e => (conv, some e)
    | .ok tc =>
      match handleToolCall parse evalFn conv tc with
      | .error e => (conv, some e)
      | .ok conv1 => runBatch parse evalFn conv1 rest

/-- Result of one `agentLoop` invocation: terminated waiting for user input,
terminated through the `catch` block with an error message (shown to the user
via alert / system message), or the scripted backend ran out of responses
(never reached under the hypotheses of the theorems below).  Each constructor
carries the final conversation and the number of model calls made. -/
inductive LoopOutcome where
  | awaitingUser (conv : List Turn) (modelCalls : Nat)
  | failed (err : String) (conv : List Turn) (modelCalls : Nat)
  | outOfScript (conv : List Turn) (modelCalls : Nat)

/-- Final conversation of a loop outcome. -/
def LoopOutcome.conv : LoopOutcome → List Turn
  | .awaitingUser c _ => c
  | .failed _ c _ => c
  | .outOfScript c _ => c

/-- The `while (!needsUserInput)` loop of `LLMAgent.agentLoop` (lines 228-256),
one scripted backend response consumed per iteration; `calls` counts the model
calls already made.  After the model call, the content is rendered (which can
throw, line 512), then the line-240 branch decides between executing the tool
batch and terminating; every thrown error reaches the loop's catch (`failed`,
the conversation keeping whatever was appended). -/
def agentLoopGo (parse : String → Except String Json) (evalFn : String → EvalOutcome) :
    List HttpResult → List Turn → Nat → LoopOutcome
  | [], conv, calls => .outOfScript conv calls
  | r :: rest, conv, calls =>
    match callLLMStep conv r with
    | (conv1, .error e) => .failed e conv1 (calls + 1)
    | (conv1, .ok t) =>
      match renderContent t.content with
      | .error e => .failed e conv1 (calls + 1)
      | .ok _ =>
        match toolCallsView t.tool_calls with
        | .noTools => .awaitingUser conv1 (calls + 1)
        | .notIterable e => .failed e conv1 (calls + 1)
        | .iterate elems =>
          match runBatch parse evalFn conv1 elems with
          | (conv2, some e) => .failed e conv2 (calls + 1)
          | (conv2, none) => agentLoopGo parse evalFn rest conv2 (calls + 1)

/-- `LLMAgent.agentLoop` started on a conversation with a scripted backend. -/
def agentLoop (parse : String → Except String Json) (evalFn : String → EvalOutcome)
    (script : List HttpResult) (conv : List Turn) : LoopOutcome :=
  agentLoopGo parse evalFn script conv 0

/-- The session state the orchestration core owns: conversation store, busy
flag, and whether an LLM configuration is present (`this.llmConfig !== null`). -/
structure AgentState where
  conversation : List Turn
  isProcessing : Bool
  llmConfig : Bool

/-- `snapshot()` of the conversation store (§4.3 of the design): the ordered
sequence of turns the model would be shown. -/
def snapshot (st : AgentState) : List Turn :=
  st.conversation

/-- `LLMAgent.clearConversation` (lines 528-546): unconditionally resets the
conversation to `[]` (the rest of the method rebuilds the welcome markup,
a pure UI effect). -/
def clearConversation (st : AgentState) : AgentState :=
  { st with conversation := [] }

/-- The user turn pushed at line 222. -/
def userTurn (message : String) : Turn :=
  { role := "user", content := some (.str message) }

/-- Result of one `handleUserMessage` invocation. -/
inductive SubmitResult where
  | rejected
  | noConfig
  | ran (out : LoopOutcome)

/-- `LLMAgent.handleUserMessage` (lines 207-226): trim the input; return at
once when the trimmed message is empty or the busy flag is set (no turn
appended, no loop started); return with an alert when no provider is
configured; otherwise set the busy flag, push the user turn, run the loop, and
clear the busy flag in the `finally` of `agentLoop`. -/
def handleUserMessage (parse : String → Except String Json) (evalFn : String → EvalOutcome)
    (script : List HttpResult) (st : AgentState) (input : String) :
    AgentState × SubmitResult :=
  let message := input.trim
  if message = "" ∨ st.isProcessing then (st, .rejected)
  else if st.llmConfig = false then (st, .noConfig)
  else
    let out := agentLoop parse evalFn script (st.conversation ++ [userTurn message])
    ({ st with conversation := out.conv, isProcessing := false }, .ran out)

/-- Wire encoding of a ToolCall as the backend emits it. -/
def toolCallJson (tc : ToolCall) : Json :=
  .obj [("id", .str tc.id),
        ("function", .obj [("name", .str tc.name), ("arguments", .str tc.args)])]

/-- A message object of the chat-completion wire shape: optional `content`
text and a `tool_calls` array. -/
def messageJson (content : Option String) (tcs : List ToolCall) : Json :=
  .obj ((match content with
         | none => []
         | some c => [("content", Json.str c)]) ++
        [("tool_calls", Json.arr (tcs.map toolCallJson))])

/-- An OK backend response whose body is `{ choices: [ { message: m } ] }`. -/
def okBody (m : Json) : HttpResult :=
  .ok (.obj [("choices", .arr [.obj [("message", m)]])])

/-- A well-formed scripted reply carrying the given content and tool calls. -/
def mkReply (content : Option String) (tcs : List ToolCall) : HttpResult :=
  okBody (messageJson content tcs)

/-- The assistant turn `callLLMStep` appends for `mkReply content tcs`. -/
def assistantTurn (content : Option String) (tcs : List ToolCall) : Turn :=
  { role := "assistant", content := (content.map Json.str),
    tool_calls := some (.arr (tcs.map toolCallJson)) }

/-- Parse oracle that fails on every input (models `JSON.parse` applied to
argument strings that are not well-formed JSON). -/
def parseFailStub : String → Except String Json :=
  fun _ => Except.error "SyntaxError: Unexpected token"

/-- Parse oracle mapping every argument string to the empty object (models
`JSON.parse` on inputs all equal to a serialized empty object). -/
def parseObjStub : String → Except String Json :=
  fun _ => Except.ok (Json.obj [])

/-- Eval oracle whose every run completes silently with no value. -/
def evalStub : String → EvalOutcome :=
  fun _ => EvalOutcome.ok [] none

/-- Fixture: a well-formed search call. -/
def tcSearch : ToolCall :=
  { id := "id_1", name := "search_web", args := "arg_a" }

/-- Fixture: a call naming a tool with no registered handler. -/
def tcUnknown : ToolCall :=
  { id := "id_2", name := "does_not_exist", args := "arg_b" }

/-- Fixture: a well-formed pipe call. -/
def tcPipe : ToolCall :=
  { id := "id_3", name := "ai_pipe", args := "arg_c" }

theorem str_data_empty : String.data "" = [] := rfl

/-- A string with a non-empty right factor is non-empty. -/
theorem str_append_ne_empty_right (a b : String) (h : b ≠ "") : a ++ b ≠ "" := by
  intro hc
  apply h
  have hd := congrArg String.data hc
  rw [String.data_append, str_data_empty] at hd
  exact String.ext ((List.append_eq_nil.mp hd).2.trans str_data_empty.symm)

/-- A string with a non-empty left factor is non-empty. -/
theorem str_append_ne_empty_left (a b : String) (h : a ≠ "") : a ++ b ≠ "" := by
  intro hc
  apply h
  have hd := congrArg String.data hc
  rw [String.data_append, str_data_empty] at hd
  exact String.ext ((List.append_eq_nil.mp hd).1.trans str_data_empty.symm)

/-- Each rendered console line is non-empty (it ends with a newline). -/
theorem logLine_ne_empty (callArgs : List Json) : logLine callArgs ≠ "" :=
  str_append_ne_empty_right _ _ (by decide)

theorem foldl_append_ne_empty (l : List String) (acc : String) (h : acc ≠ "") :
    l.foldl (· ++ ·) acc ≠ "" := by
  induction l generalizing acc with
  | nil => simpa using h
  | cons x xs ih =>
    simp only [List.foldl_cons]
    exact ih (acc ++ x) (str_append_ne_empty_left _ _ h)

/-- The captured console output is non-empty whenever at least one log call
was recorded. -/
theorem joinLog_ne_empty (l : List (List Json)) (h : l ≠ []) :
    String.join (l.map logLine) ≠ "" := by
  cases l with
  | nil => exact absurd rfl h
  | cons x xs =>
    unfold String.join
    simp only [List.map_cons, List.foldl_cons]
    exact foldl_append_ne_empty _ _ (str_append_ne_empty_right _ _ (logLine_ne_empty x))

/-- One model-client step either appends exactly the returned assistant turn or
throws with the conversation untouched. -/
theorem callLLMStep_cases (conv : List Turn) (r : HttpResult) :
    (∃ t, callLLMStep conv r = (conv ++ [t], Except.ok t)) ∨
    (∃ e, callLLMStep conv r = (conv, Except.error e)) := by
  cases r with
  | notOk status statusText => exact Or.inr ⟨_, rfl⟩
  | ok body =>
    unfold callLLMStep
    dsimp only
    cases extractMessage body with
    | error e => exact Or.inr ⟨e, rfl⟩
    | ok m =>
      dsimp only
      cases mkAssistantTurn m with
      | error e => exact Or.inr ⟨e, rfl⟩
      | ok t => exact Or.inl ⟨t, rfl⟩

theorem callLLMStep_fst_ok (conv : List Turn) (r : HttpResult) (t : Turn)
    (h : (callLLMStep conv r).2 = Except.ok t) :
    (callLLMStep conv r).1 = conv ++ [t] := by
  rcases callLLMStep_cases conv r with ⟨t2, h2⟩ | ⟨e, h2⟩
  · rw [h2] at h ⊢
    simp only at h ⊢
    rw [Except.ok.injEq] at h
    rw [h]
  · rw [h2] at h
    exact absurd h (by simp)

theorem callLLMStep_fst_error (conv : List Turn) (r : HttpResult) (e : String)
    (h : (callLLMStep conv r).2 = Except.error e) :
    (callLLMStep conv r).1 = conv := by
  rcases callLLMStep_cases conv r with ⟨t2, h2⟩ | ⟨e2, h2⟩
  · rw [h2] at h
    exact absurd h (by simp)
  · rw [h2]

/-- On a well-formed scripted reply, `callLLM` appends exactly the assistant
turn generated from the message. -/
theorem callLLMStep_mkReply (conv : List Turn) (content : Option String) (tcs : List ToolCall) :
    callLLMStep conv (mkReply content tcs) =
      (conv ++ [assistantTurn content tcs], Except.ok (assistantTurn content tcs)) := by
  cases content <;> rfl

/-- Decoding inverts the wire encoding of a tool call. -/
theorem decodeToolCall_encode (tc : ToolCall) : decodeToolCall (toolCallJson tc) = Except.ok tc := rfl

/-- When the arguments parse to a non-null value, `handleToolCall` always
returns normally and appends exactly the tool turn described by
`toolTurnFor`. -/
theorem handleToolCall_parse_ok (parse : String → Except String Json)
    (evalFn : String → EvalOutcome) (conv : List Turn) (tc : ToolCall) (j : Json)
    (h : parse tc.args = Except.ok j) (hnn : j ≠ Json.null) :
    handleToolCall parse evalFn conv tc =
      Except.ok (conv ++ [toolTurnFor parse evalFn tc]) := by
  unfold handleToolCall toolTurnFor
  rw [h]
  cases j
  case null => exact absurd rfl hnn
  all_goals
    dsimp only
    cases dispatchTool parse evalFn tc <;> rfl

/-- Every appended tool turn answers its ToolCall by id. -/
theorem toolTurnFor_tool_call_id (parse : String → Except String Json)
    (evalFn : String → EvalOutcome) (tc : ToolCall) :
    (toolTurnFor parse evalFn tc).tool_call_id = some tc.id := by
  unfold toolTurnFor
  cases dispatchTool parse evalFn tc <;> rfl

/-- A batch of well-formed tool calls whose arguments all parse appends
exactly one tool turn per call, in emission order, with no escaping error. -/
theorem runBatch_all_ok (parse : String → Except String Json)
    (evalFn : String → EvalOutcome) (conv : List Turn) (tcs : List ToolCall)
    (h : ∀ tc ∈ tcs, ∃ j, parse tc.args = Except.ok j ∧ j ≠ Json.null) :
    runBatch parse evalFn conv (tcs.map toolCallJson) =
      (conv ++ tcs.map (toolTurnFor parse evalFn), none) := by
  induction tcs generalizing conv with
  | nil => simp [runBatch]
  | cons tc rest ih =>
    obtain ⟨j, hj, hnn⟩ := h tc (by simp)
    rw [List.map_cons]
    unfold runBatch
    rw [decodeToolCall_encode]
    dsimp only
    rw [handleToolCall_parse_ok parse evalFn conv tc j hj hnn]
    dsimp only
    rw [ih _ (fun tc2 h2 => h tc2 (by simp [h2]))]
    simp

/-- A dispatched tool call that succeeds parsed its arguments to a non-null
value (each handler destructures the parse result, which throws on null) and
produced a string payload. -/
theorem dispatchTool_ok_str (parse : String → Except String Json)
    (evalFn : String → EvalOutcome) (tc : ToolCall) (p : Payload)
    (h : dispatchTool parse evalFn tc = Except.ok p) :
    (∃ s, p = Payload.str s) ∧ (∃ j, parse tc.args = Except.ok j ∧ j ≠ Json.null) := by
  unfold dispatchTool at h
  split_ifs at h
  · cases hp : parse tc.args with
    | error e => rw [hp] at h; simp at h
    | ok j =>
      rw [hp] at h
      dsimp only at h
      cases hq : argField j "query" with
      | error e => rw [hq] at h; simp at h
      | ok q =>
        rw [hq] at h
        have hnn : j ≠ Json.null := by
          intro h0
          rw [h0] at hq
          simp [argField] at hq
        exact ⟨⟨_, (Except.ok.injEq _ _ |>.mp h.symm)⟩, ⟨j, rfl, hnn⟩⟩
  · cases hp : parse tc.args with
    | error e => rw [hp] at h; simp at h
    | ok j =>
      rw [hp] at h
      dsimp only at h
      cases hw : argField j "workflow" with
      | error e => rw [hw] at h; simp at h
      | ok w =>
        rw [hw] at h
        dsimp only at h
        cases hd : argField j "data" with
        | error e => rw [hd] at h; simp at h
        | ok d =>
          rw [hd] at h
          have hnn : j ≠ Json.null := by
            intro h0
            rw [h0] at hw
            simp [argField] at hw
          exact ⟨⟨_, (Except.ok.injEq _ _ |>.mp h.symm)⟩, ⟨j, rfl, hnn⟩⟩
  · cases hp : parse tc.args with
    | error e => rw [hp] at h; simp at h
    | ok j =>
      rw [hp] at h
      dsimp only at h
      cases hc : argField j "code" with
      | error e => rw [hc] at h; simp at h
      | ok codeVal =>
        rw [hc] at h
        dsimp only at h
        cases he : execJSOutcome (runEval evalFn codeVal) with
        | error e => rw [he] at h; simp at h
        | ok s =>
          rw [he] at h
          have hnn : j ≠ Json.null := by
            intro h0
            rw [h0] at hc
            simp [argField] at hc
          exact ⟨⟨_, (Except.ok.injEq _ _ |>.mp h.symm)⟩, ⟨j, rfl, hnn⟩⟩

/-- A response content of the wire shape (absent or a string) always renders
without throwing. -/
theorem renderContent_optStr (c : Option String) :
    renderContent (c.map Json.str) = Except.ok () := by
  cases c with
  | none => rfl
  | some s => simp [renderContent]

/-- One loop iteration on a response whose content renders and whose
tool_calls fail the line-240 test terminates awaiting user input with just
the assistant turn appended. -/
theorem agentLoopGo_step_noTools (parse : String → Except String Json)
    (evalFn : String → EvalOutcome) (rest : List HttpResult) (conv : List Turn)
    (calls : Nat) (r : HttpResult) (t : Turn)
    (hok : (callLLMStep conv r).2 = Except.ok t)
    (hrc : renderContent t.content = Except.ok ())
    (hview : toolCallsView t.tool_calls = ToolCallsView.noTools) :
    agentLoopGo parse evalFn (r :: rest) conv calls =
      LoopOutcome.awaitingUser (conv ++ [t]) (calls + 1) := by
  rcases callLLMStep_cases conv r with ⟨t2, h2⟩ | ⟨e2, h2⟩
  · rw [h2] at hok
    rw [Except.ok.injEq] at hok
    subst hok
    unfold agentLoopGo
    rw [h2]
    dsimp only
    rw [hrc]
    dsimp only
    rw [hview]
  · rw [h2] at hok
    exact absurd hok (by simp)

/-- One loop iteration whose model call throws ends the loop in the failed
state with the conversation unchanged by that call. -/
theorem agentLoopGo_step_error (parse : String → Except String Json)
    (evalFn : String → EvalOutcome) (rest : List HttpResult) (conv : List Turn)
    (calls : Nat) (r : HttpResult) (e : String)
    (herr : (callLLMStep conv r).2 = Except.error e) :
    agentLoopGo parse evalFn (r :: rest) conv calls =
      LoopOutcome.failed e conv (calls + 1) := by
  rcases callLLMStep_cases conv r with ⟨t2, h2⟩ | ⟨e2, h2⟩
  · rw [h2] at herr
    exact absurd herr (by simp)
  · rw [h2] at herr
    rw [Except.error.injEq] at herr
    subst herr
    unfold agentLoopGo
    rw [h2]

/-- One loop iteration on a well-formed reply carrying tool calls whose
arguments all parse: the assistant turn and exactly one tool turn per call are
appended, in order, and the loop proceeds to the next model call. -/
theorem agentLoopGo_step_tools (parse : String → Except String Json)
    (evalFn : String → EvalOutcome) (rest : List HttpResult) (conv : List Turn)
    (calls : Nat) (content : Option String) (tcs : List ToolCall)
    (hne : tcs ≠ [])
    (h : ∀ tc ∈ tcs, ∃ j, parse tc.args = Except.ok j ∧ j ≠ Json.null) :
    agentLoopGo parse evalFn (mkReply content tcs :: rest) conv calls =
      agentLoopGo parse evalFn rest
        ((conv ++ [assistantTurn content tcs]) ++ tcs.map (toolTurnFor parse evalFn))
        (calls + 1) := by
  cases tcs with
  | nil => exact absurd rfl hne
  | cons tc rest2 =>
    conv_lhs => rw [agentLoopGo]
    rw [callLLMStep_mkReply]
    dsimp only
    rw [show renderContent (assistantTurn content (tc :: rest2)).content = Except.ok ()
        from renderContent_optStr content]
    dsimp only
    rw [show toolCallsView (assistantTurn content (tc :: rest2)).tool_calls
        = ToolCallsView.iterate ((tc :: rest2).map toolCallJson) from rfl]
    dsimp only
    rw [runBatch_all_ok parse evalFn _ _ h]

/-- Claim C1: the claim states that `handleToolCall` never lets an exception
reach the agent loop and always completes by appending one tool turn, even for
an unparseable arguments string.  The code refutes the unparseable-arguments
part: `showToolCall` re-parses the arguments with `JSON.parse` before the
`try` block, so the parse failure propagates out of `handleToolCall` with no
tool turn appended (and `agentLoop`'s own catch then aborts the loop). -/
theorem handleToolCall_unparseable_args_escape
    (parse : String → Except String Json) (evalFn : String → EvalOutcome)
    (conv : List Turn) (tc : ToolCall) (e : String)
    (h : parse tc.args = Except.error e) :
    handleToolCall parse evalFn conv tc = Except.error e := by
  unfold handleToolCall
  rw [h]

theorem handleToolCall_unparseable_args_escape_witness :
    handleToolCall parseFailStub evalStub []
      { id := "call_1", name := "search_web", args := "not valid json" } =
      Except.error "SyntaxError: Unexpected token" :=
  handleToolCall_unparseable_args_escape parseFailStub evalStub []
    { id := "call_1", name := "search_web", args := "not valid json" }
    "SyntaxError: Unexpected token" rfl

/-- Claim C2: an assistant reply carrying N tool calls (N ≥ 0, each argument
string parsing to a non-null value — an unparseable or null-parsing argument
instead escapes pre-try, the C1 bug family) is answered by exactly N tool
turns appended after the assistant turn and before the next model call, the
i-th turn carrying the i-th ToolCall's id, sequentially in emission order
(the batch is a left fold, so call i+1 runs only on the conversation already
extended by call i's turn). -/
theorem assistant_batch_answered_in_order
    (parse : String → Except String Json) (evalFn : String → EvalOutcome)
    (conv : List Turn) (rest : List HttpResult) (content : Option String)
    (tcs : List ToolCall)
    (h : ∀ tc ∈ tcs, ∃ j, parse tc.args = Except.ok j ∧ j ≠ Json.null) :
    (tcs = [] →
      agentLoop parse evalFn (mkReply content tcs :: rest) conv =
        LoopOutcome.awaitingUser (conv ++ [assistantTurn content tcs]) 1) ∧
    (tcs ≠ [] →
      agentLoop parse evalFn (mkReply content tcs :: rest) conv =
        agentLoopGo parse evalFn rest
          ((conv ++ [assistantTurn content tcs]) ++ tcs.map (toolTurnFor parse evalFn)) 1) ∧
    (tcs.map (toolTurnFor parse evalFn)).map Turn.tool_call_id =
      tcs.map (fun tc => some tc.id) := by
  refine ⟨?_, ?_, ?_⟩
  · intro he
    subst he
    unfold agentLoop
    exact agentLoopGo_step_noTools parse evalFn rest conv 0 _ _
      (by rw [callLLMStep_mkReply]) (renderContent_optStr content) rfl
  · intro hne
    unfold agentLoop
    exact agentLoopGo_step_tools parse evalFn rest conv 0 content tcs hne h
  · induction tcs with
    | nil => rfl
    | cons tc rest2 ih =>
      simp only [List.map_cons, toolTurnFor_tool_call_id]
      rw [ih (fun tc2 h2 => h tc2 (by simp [h2]))]

theorem assistant_batch_answered_in_order_witness :
    agentLoop parseObjStub evalStub [mkReply (some "x") [tcSearch, tcUnknown]] [] =
      agentLoopGo parseObjStub evalStub []
        (([] ++ [assistantTurn (some "x") [tcSearch, tcUnknown]]) ++
          [tcSearch, tcUnknown].map (toolTurnFor parseObjStub evalStub)) 1 ∧
    ([tcSearch, tcUnknown].map (toolTurnFor parseObjStub evalStub)).map Turn.tool_call_id =
      [some "id_1", some "id_2"] := by
  have h := assistant_batch_answered_in_order parseObjStub evalStub [] []
      (some "x") [tcSearch, tcUnknown]
      (fun tc _ => ⟨Json.obj [], rfl, by intro h0; exact Json.noConfusion h0⟩)
  refine ⟨h.2.1 (by simp), ?_⟩
  rw [h.2.2]
  rfl

/-- Claim C3: for a response of the spec's ModelResponse shape — content
absent or a string, `tool_calls` absent or the empty array — the loop makes
exactly one model call, appends the single assistant turn, executes no tool,
and terminates awaiting user input.  (Outside that shape the source aborts:
truthy non-string content throws at the line-512 render, and a non-empty
string `tool_calls` passes the line-240 test and faults in the tools branch —
both now modelled by `renderContent` / `toolCallsView`.) -/
theorem no_toolcalls_single_model_call
    (parse : String → Except String Json) (evalFn : String → EvalOutcome)
    (conv : List Turn) (rest : List HttpResult) (r : HttpResult) (t : Turn)
    (hok : (callLLMStep conv r).2 = Except.ok t)
    (hcontent : t.content = none ∨ ∃ s, t.content = some (Json.str s))
    (htc : t.tool_calls = none ∨ t.tool_calls = some (Json.arr [])) :
    agentLoop parse evalFn (r :: rest) conv =
      LoopOutcome.awaitingUser (conv ++ [t]) 1 := by
  have hrc : renderContent t.content = Except.ok () := by
    rcases hcontent with hc | ⟨s, hc⟩
    · rw [hc]
      rfl
    · rw [hc]
      simp [renderContent]
  have hview : toolCallsView t.tool_calls = ToolCallsView.noTools := by
    rcases htc with hc | hc <;> rw [hc] <;> rfl
  unfold agentLoop
  exact agentLoopGo_step_noTools parse evalFn rest conv 0 r t hok hrc hview

theorem no_toolcalls_single_model_call_witness :
    agentLoop parseFailStub evalStub [mkReply (some "hello") []] [] =
      LoopOutcome.awaitingUser [assistantTurn (some "hello") []] 1 := by
  have h := no_toolcalls_single_model_call parseFailStub evalStub [] []
      (mkReply (some "hello") []) (assistantTurn (some "hello") [])
      (by rw [callLLMStep_mkReply]) (Or.inr ⟨"hello", rfl⟩) (Or.inr rfl)
  simpa using h

/-- Claim C4: an unrecovered model-client error — non-OK transport response or
a payload missing the expected `choices[0].message` path — surfaces to the
caller as the failed outcome carrying the error, appends no assistant turn for
the failing call, and leaves the conversation exactly as it was before that
call. -/
theorem model_error_atomic
    (parse : String → Except String Json) (evalFn : String → EvalOutcome)
    (conv : List Turn) (rest : List HttpResult) (r : HttpResult) (e : String)
    (herr : (callLLMStep conv r).2 = Except.error e) :
    agentLoop parse evalFn (r :: rest) conv = LoopOutcome.failed e conv 1 := by
  unfold agentLoop
  exact agentLoopGo_step_error parse evalFn rest conv 0 r e herr

theorem model_error_atomic_witness :
    agentLoop parseFailStub evalStub [HttpResult.ok (Json.obj [])] [userTurn "hi"] =
      LoopOutcome.failed "TypeError: Cannot read properties of undefined (reading 0)"
        [userTurn "hi"] 1 :=
  model_error_atomic parseFailStub evalStub [userTurn "hi"] []
    (HttpResult.ok (Json.obj [])) _ rfl

/-- Claim C5: while the busy flag is set, submitting a user turn is rejected:
the state (in particular the conversation store) is returned unchanged and no
agent loop is started. -/
theorem busy_submission_rejected
    (parse : String → Except String Json) (evalFn : String → EvalOutcome)
    (script : List HttpResult) (st : AgentState) (input : String)
    (h : st.isProcessing = true) :
    handleUserMessage parse evalFn script st input = (st, SubmitResult.rejected) := by
  simp [handleUserMessage, h]

theorem busy_submission_rejected_witness :
    handleUserMessage parseFailStub evalStub []
      { conversation := [userTurn "hi"], isProcessing := true, llmConfig := true } "again" =
      ({ conversation := [userTurn "hi"], isProcessing := true, llmConfig := true },
        SubmitResult.rejected) :=
  busy_submission_rejected parseFailStub evalStub [] _ "again" rfl

/-- Claim C6: on every exit of the evaluate handler — normal completion or
propagated fault — the `console.log` slot is restored to its value from before
the handler replaced it. -/
theorem executeJS_restores_console (evalOut : EvalOutcome) (consoleLog : LogFn) :
    (executeJS evalOut consoleLog).2 = consoleLog := by
  cases evalOut <;> rfl

/-- Claim C7: a code payload whose evaluation produces no captured output and
no value yields the fixed sentinel; otherwise the handler returns the captured
output concatenated with the return value. -/
theorem executeJS_output (logs : List (List Json)) (result : Option Json) (c : LogFn) :
    (logs = [] ∧ result = none →
      (executeJS (.ok logs result) c).1 =
        Except.ok "Code executed successfully (no output)") ∧
    (logs ≠ [] ∨ result ≠ none →
      (executeJS (.ok logs result) c).1 = Except.ok (specExecOutput logs result)) := by
  constructor
  · rintro ⟨h1, h2⟩
    subst h1
    subst h2
    rfl
  · intro hor
    unfold executeJS specExecOutput
    dsimp only
    by_cases hco : String.join (logs.map logLine) = ""
    · have hlogs : logs = [] := by
        by_contra hne
        exact joinLog_ne_empty logs hne hco
      subst hlogs
      cases result with
      | none => simp at hor
      | some v => rfl
    · rw [if_neg hco]
      have h3 : "Console Output:\n" ++ String.join (logs.map logLine) ≠ "" :=
        str_append_ne_empty_left _ _ (by decide)
      cases result with
      | none =>
        dsimp only
        rw [if_neg h3]
      | some v =>
        dsimp only
        rw [if_neg h3]
        have h4 : (("Console Output:\n" ++ String.join (logs.map logLine) ++ "\n\n") ++
            "Return Value:\n") ++ logArg v ≠ "" :=
          str_append_ne_empty_left _ _ (str_append_ne_empty_right _ _ (by decide))
        rw [if_neg h4]

theorem executeJS_output_witness :
    (executeJS (EvalOutcome.ok [[Json.str "hi"]] none) (LogFn.base 0)).1 =
      Except.ok "Console Output:\nhi\n" := by
  have h := executeJS_output [[Json.str "hi"]] none (LogFn.base 0)
  have h2 := h.2 (Or.inl (by simp))
  rw [h2]
  rfl

/-- Claim C8: clearing the conversation and then taking a snapshot yields the
empty sequence of turns, whatever the prior contents were. -/
theorem clear_then_snapshot_empty (st : AgentState) :
    snapshot (clearConversation st) = [] := rfl

/-- Claim C9: the success-path serialization into the tool turn is lossless:
every handler success payload is a string, stored unchanged as the turn's
content (the non-string `JSON.stringify` branch of line 325 is unreachable,
so nothing is lost on the success path). -/
theorem success_payload_lossless
    (parse : String → Except String Json) (evalFn : String → EvalOutcome)
    (conv : List Turn) (tc : ToolCall) (p : Payload)
    (h : dispatchTool parse evalFn tc = Except.ok p) :
    (∃ s, p = Payload.str s ∧ serializePayload p = s) ∧
    handleToolCall parse evalFn conv tc =
      Except.ok (conv ++ [toolTurn tc.id (serializePayload p)]) := by
  obtain ⟨⟨s, hs⟩, ⟨j, hj, hnn⟩⟩ := dispatchTool_ok_str parse evalFn tc p h
  refine ⟨⟨s, hs, by rw [hs]; rfl⟩, ?_⟩
  rw [handleToolCall_parse_ok parse evalFn conv tc j hj hnn]
  unfold toolTurnFor
  rw [h]

theorem success_payload_lossless_witness :
    (∃ s, Payload.str (searchWeb none) = Payload.str s ∧
        serializePayload (Payload.str (searchWeb none)) = s) ∧
    handleToolCall parseObjStub evalStub [] tcSearch =
      Except.ok [toolTurn tcSearch.id (serializePayload (Payload.str (searchWeb none)))] := by
  have h := success_payload_lossless parseObjStub evalStub [] tcSearch
      (Payload.str (searchWeb none)) rfl
  simpa using h

/-- Claim C10: the search and pipe handlers are total success functions: for
every argument object — including one missing the query, workflow or data
fields — they produce a success string payload, never a failure and never a
thrown error. -/
theorem search_pipe_total_success
    (parse : String → Except String Json) (evalFn : String → EvalOutcome)
    (tc : ToolCall) (fs : List (String × Json))
    (hp : parse tc.args = Except.ok (Json.obj fs)) :
    (tc.name = "search_web" →
      dispatchTool parse evalFn tc =
        Except.ok (Payload.str (searchWeb (fieldLookup fs "query")))) ∧
    (tc.name = "ai_pipe" →
      dispatchTool parse evalFn tc =
        Except.ok (Payload.str (aiPipe (fieldLookup fs "workflow") (fieldLookup fs "data")))) := by
  constructor
  · intro hn
    simp [dispatchTool, hn, hp, argField]
  · intro hn
    simp [dispatchTool, hn, hp, argField]

theorem search_pipe_total_success_witness :
    dispatchTool parseObjStub evalStub tcPipe =
      Except.ok (Payload.str (aiPipe none none)) := by
  have h := search_pipe_total_success parseObjStub evalStub tcPipe [] rfl
  exact h.2 rfl
